import Mathlib

/-!
Verification of the pulseberry payment-mesh core against its specification.

The Go sources are shallowly embedded: Go maps become total functions with the
Go zero value as default, Go `int`/`int64` become `Int` (no arithmetic here
comes near the 64-bit range), `time.Duration`/timestamps become integers
(nanoseconds resp. abstract ticks), `float64` values that the code compares
and combines exactly (error rates, scores, interpolation weights) become `ℚ`,
and external collaborators (Redis, HTTP providers, the compliance provider,
the random source, the wall clock) become explicit parameters.
-/

/-! ## Payment state machine (backend/state.go) -/

/-- The `State` enum of backend/state.go (`iota` order). -/
inductive State where
  | INITIATED
  | PROCESSING
  | CANCELLED
  | SUCCESS
  | FAILED
deriving DecidableEq, Repr

/-- Numeric value of a `State`, as Go's `iota` assigns it. -/
def State.toNat : State → Nat
  | .INITIATED => 0
  | .PROCESSING => 1
  | .CANCELLED => 2
  | .SUCCESS => 3
  | .FAILED => 4

/-- `State.String()` of backend/state.go, applied to the raw integer value
(Go converts any int to `State`; values outside 0..4 print UNKNOWN). -/
def stateName : Nat → String
  | 0 => "INITIATED"
  | 1 => "PROCESSING"
  | 2 => "CANCELLED"
  | 3 => "SUCCESS"
  | 4 => "FAILED"
  | _ => "UNKNOWN"

/-- The process-local `status` map of backend/state.go: a Go
`map[string]int`, whose lookup returns the zero value 0 for absent keys. -/
def StatusMap := String → Nat

/-- The empty `status` map: every id reads as 0. -/
def initialStatus : StatusMap := fun _ => 0

/-- Store update `status[id] = int(changestate)`. -/
def setKey (m : StatusMap) (id : String) (v : Nat) : StatusMap :=
  fun k => if k = id then v else m k

/-- `SetState` of backend/state.go. Returns the updated map and the Go
`(bool, error)` collapsed to the bool (the error is non-nil exactly when the
bool is false). Mirrors the source: the first `if` fires when the stored
value is 0 — which is both the absent default and `int(INITIATED)` — and the
`switch` dispatches on the stored integer. -/
def SetState (m : StatusMap) (id : String) (changestate : State) :
    StatusMap × Bool :=
  let currentState := m id
  if currentState = 0 ∧ changestate = State.INITIATED then
    (setKey m id changestate.toNat, true)
  else if currentState = State.INITIATED.toNat then
    if changestate = State.PROCESSING ∨ changestate = State.CANCELLED then
      (setKey m id changestate.toNat, true)
    else (m, false)
  else if currentState = State.PROCESSING.toNat then
    if changestate = State.SUCCESS ∨ changestate = State.CANCELLED ∨
        changestate = State.FAILED then
      (setKey m id changestate.toNat, true)
    else (m, false)
  else if currentState = State.FAILED.toNat then
    if changestate = State.PROCESSING then (setKey m id changestate.toNat, true)
    else (m, false)
  else
    (m, false)

/-- `GetState` of backend/state.go: `State(status[id])`, kept as the raw
integer (Go's conversion is the identity on the representation). -/
def GetState (m : StatusMap) (id : String) : Nat := m id

/-- The transition relation of the specification's state graph (§4.8),
written from the spec's words: a distinct absent state whose only exit is
INITIATED, then INITIATED → PROCESSING | CANCELLED,
PROCESSING → SUCCESS | FAILED | CANCELLED, FAILED → PROCESSING. -/
def specAllowed : Option State → State → Bool
  | none, .INITIATED => true
  | some .INITIATED, .PROCESSING => true
  | some .INITIATED, .CANCELLED => true
  | some .PROCESSING, .SUCCESS => true
  | some .PROCESSING, .FAILED => true
  | some .PROCESSING, .CANCELLED => true
  | some .FAILED, .PROCESSING => true
  | _, _ => false

/-- The transition relation the code actually implements, on the stored
integer: absent and INITIATED are identified (both read as 0), so from 0 the
store accepts INITIATED (re-entry), PROCESSING and CANCELLED. -/
def codeAllowed (cur : Nat) (c : State) : Bool :=
  if cur = 0 then
    decide (c = State.INITIATED ∨ c = State.PROCESSING ∨ c = State.CANCELLED)
  else if cur = 1 then
    decide (c = State.SUCCESS ∨ c = State.CANCELLED ∨ c = State.FAILED)
  else if cur = 4 then decide (c = State.PROCESSING)
  else false

/-! ## Payment HTTP handlers (part_001) -/

/-- `ComplianceThreshold` of part_001. -/
def ComplianceThreshold : Int := 1000000

/-- The decoded body of a `POST /payment` request (part_001's local
`PaymentRequest` struct). -/
structure PaymentReq where
  id : String
  amount : Int
  paymentID : String
  currency : String
  userID : String
deriving DecidableEq, Repr

/-- The external collaborators the `Payment` handler consults, fixed for one
request: the Redis value stored under this request's fingerprint hash, the
Redis value stored under `payment_result:<payment_id>`, and the outcome of
the compliance provider (`true` iff the check returned with no error and
status approved). -/
structure PaymentEnv where
  keyLookup : Option String
  cachedResult : Option String
  complianceOK : Bool
deriving Repr

/-- Everything observable about one `Payment` POST: HTTP status (Go defaults
to 200 when `WriteHeader` is not called), the envelope's error code if any,
the envelope's `status` field, the raw body when the handler writes a cached
blob directly, the `X-Idempotent-Replay` header, the state store afterwards,
whether `processPaymentAsync` was launched, and whether the compliance
provider was invoked. -/
structure PaymentOutcome where
  httpStatus : Nat
  errorCode : Option String
  statusField : String
  rawBody : Option String
  replayHeader : Bool
  newStatus : StatusMap
  dispatched : Bool
  complianceCalled : Bool

/-- The POST branch of `Payment` (part_001), from the point where the body
has been decoded into `req0`. Redis reads are supplied by `env`; body-read
and JSON-decode failures are outside this model. -/
def paymentPost (env : PaymentEnv) (m : StatusMap) (req0 : PaymentReq) :
    PaymentOutcome :=
  let req := if req0.currency = "" then { req0 with currency := "USD" } else req0
  if req.paymentID = "" then
    { httpStatus := 400, errorCode := some "PAYMENT_ID_REQUIRED",
      statusField := stateName State.FAILED.toNat, rawBody := none,
      replayHeader := false, newStatus := m, dispatched := false,
      complianceCalled := false }
  else
    match env.keyLookup with
    | none =>
      { httpStatus := 401, errorCode := some "PAYMENT_KEY_NOT_FOUND",
        statusField := "FAILED", rawBody := none, replayHeader := false,
        newStatus := m, dispatched := false, complianceCalled := false }
    | some cachedPaymentID =>
      if cachedPaymentID = "" then
        { httpStatus := 401, errorCode := some "PAYMENT_KEY_NOT_FOUND",
          statusField := "FAILED", rawBody := none, replayHeader := false,
          newStatus := m, dispatched := false, complianceCalled := false }
      else if req.paymentID ≠ cachedPaymentID then
        let m1 := (SetState m req.paymentID State.FAILED).1
        { httpStatus := 401, errorCode := some "PAYMENT_ID_MISMATCH",
          statusField := stateName (GetState m1 req.paymentID),
          rawBody := none, replayHeader := false, newStatus := m1,
          dispatched := false, complianceCalled := false }
      else
        let currentState := GetState m req.paymentID
        if currentState = State.SUCCESS.toNat ∨ currentState = State.FAILED.toNat then
          match env.cachedResult with
          | some cachedResult =>
            if cachedResult ≠ "" then
              { httpStatus := 200, errorCode := none,
                statusField := stateName currentState,
                rawBody := some cachedResult, replayHeader := true,
                newStatus := m, dispatched := false, complianceCalled := false }
            else
              { httpStatus := 200, errorCode := none,
                statusField := stateName currentState, rawBody := none,
                replayHeader := true, newStatus := m, dispatched := false,
                complianceCalled := false }
          | none =>
            { httpStatus := 200, errorCode := none,
              statusField := stateName currentState, rawBody := none,
              replayHeader := true, newStatus := m, dispatched := false,
              complianceCalled := false }
        else if currentState = State.PROCESSING.toNat then
          { httpStatus := 409, errorCode := some "INTERNAL_ERROR",
            statusField := stateName currentState, rawBody := none,
            replayHeader := false, newStatus := m, dispatched := false,
            complianceCalled := false }
        else
          if req.amount ≥ ComplianceThreshold ∧ req.userID ≠ "" then
            if ¬ env.complianceOK then
              let m1 := (SetState m req.paymentID State.FAILED).1
              { httpStatus := 403, errorCode := some "KYC_REQUIRED",
                statusField := stateName State.FAILED.toNat, rawBody := none,
                replayHeader := false, newStatus := m1, dispatched := false,
                complianceCalled := true }
            else
              let m1 := (SetState m req.paymentID State.INITIATED).1
              let m2 := (SetState m1 req.paymentID State.PROCESSING).1
              { httpStatus := 200, errorCode := none,
                statusField := stateName State.PROCESSING.toNat,
                rawBody := none, replayHeader := false, newStatus := m2,
                dispatched := true, complianceCalled := true }
          else
            let m1 := (SetState m req.paymentID State.INITIATED).1
            let m2 := (SetState m1 req.paymentID State.PROCESSING).1
            { httpStatus := 200, errorCode := none,
              statusField := stateName State.PROCESSING.toNat,
              rawBody := none, replayHeader := false, newStatus := m2,
              dispatched := true, complianceCalled := false }

/-- One key-value store of string keys (the Redis the intent store lives in);
`none` models both a missing key and a Redis error on read. -/
def KV := String → Option String

/-- The POST branch of `PaymentKey` (part_001), from the decoded `{id,
amount}` body. `requestHash` abstracts `SHA256Hash(json.Marshal({id,
amount}))` — a fixed function of the pair, so it is passed in applied;
`freshID` is the `uuid.NewString()` drawn if a new id must be minted. Redis
`Set` is modelled as always succeeding. Returns the store afterwards and the
`payment_id` answered. -/
def paymentKeyPost (kv : KV) (requestHash : String) (freshID : String) :
    KV × String :=
  match kv requestHash with
  | some cachedPaymentID =>
    if cachedPaymentID ≠ "" then
      (kv, cachedPaymentID)
    else
      let paymentID := "pay_" ++ freshID
      (fun k => if k = requestHash then some paymentID else kv k, paymentID)
  | none =>
    let paymentID := "pay_" ++ freshID
    (fun k => if k = requestHash then some paymentID else kv k, paymentID)

/-! ## Circuit breaker (the CircuitBreaker file served as
backend/frontend/bpay-login/js/script.js in this snapshot) -/

/-- `CircuitState` (`iota` order: CLOSED, OPEN, HALF_OPEN). -/
inductive CircuitState where
  | StateClosed
  | StateOpen
  | StateHalfOpen
deriving DecidableEq, Repr

/-- `CircuitBreakerConfig`. Durations are integer ticks; the Go float64
`ErrorRateThreshold` is carried exactly as a rational. -/
structure CircuitBreakerConfig where
  failureThreshold : Nat
  errorRateThreshold : ℚ
  windowDuration : Nat
  cooldownPeriod : Nat
  halfOpenMaxRequests : Nat
deriving Repr

/-- `DefaultCircuitBreakerConfig()`: 10 consecutive failures, 50% error
rate, 60 s window, 30 s cooldown, 5 half-open probes (times in seconds). -/
def DefaultCircuitBreakerConfig : CircuitBreakerConfig :=
  { failureThreshold := 10, errorRateThreshold := mkRat 1 2,
    windowDuration := 60, cooldownPeriod := 30, halfOpenMaxRequests := 5 }

/-- The mutable `CircuitBreaker` struct; `requestHistory` entries are
(timestamp, success). -/
structure CircuitBreaker where
  name : String
  state : CircuitState
  failureCount : Nat
  successCount : Nat
  totalRequests : Nat
  errorCount : Nat
  lastStateChange : Nat
  lastError : Option String
  requestHistory : List (Nat × Bool)
  config : CircuitBreakerConfig
deriving Repr

/-- `NewCircuitBreaker(name, config)` created at time `now`. -/
def NewCircuitBreaker (name : String) (config : CircuitBreakerConfig)
    (now : Nat) : CircuitBreaker :=
  { name := name, state := .StateClosed, failureCount := 0, successCount := 0,
    totalRequests := 0, errorCount := 0, lastStateChange := now,
    lastError := none, requestHistory := [], config := config }

/-- `record.timestamp.After(now − windowDuration)`, stated without
subtraction so it is exact even when `now < windowDuration`. -/
def inWindow (now windowDuration ts : Nat) : Bool :=
  ts + windowDuration > now

/-- `calculateErrorRate()`: errors over total among history records inside
the window ending at `now`; 0 when the window is empty. -/
def calculateErrorRate (cb : CircuitBreaker) (now : Nat) : ℚ :=
  let recs := cb.requestHistory.filter
    (fun r => inWindow now cb.config.windowDuration r.1)
  if recs.length = 0 then 0
  else ((recs.filter (fun r => r.2 = false)).length : ℚ) / (recs.length : ℚ)

/-- `cleanOldHistory()`: drop records outside the window ending at `now`. -/
def cleanOldHistory (cb : CircuitBreaker) (now : Nat) : CircuitBreaker :=
  let kept := cb.requestHistory.filter
    (fun r => inWindow now cb.config.windowDuration r.1)
  { cb with requestHistory := kept }

/-- `shouldOpen()`: consecutive failures reached the threshold, or the
windowed error rate reached its threshold while the breaker's cumulative
`totalRequests` counter is at least 10. -/
def shouldOpen (cb : CircuitBreaker) (now : Nat) : Bool :=
  cb.failureCount ≥ cb.config.failureThreshold ∨
    (calculateErrorRate cb now ≥ cb.config.errorRateThreshold ∧
      cb.totalRequests ≥ 10)

/-- `transitionTo(newState)` at time `now`: counters reset on entry to
CLOSED; consecutive counters reset on entry to HALF_OPEN. -/
def transitionTo (cb : CircuitBreaker) (newState : CircuitState) (now : Nat) :
    CircuitBreaker :=
  let cb := { cb with state := newState, lastStateChange := now }
  match newState with
  | .StateClosed =>
    { cb with failureCount := 0, successCount := 0, errorCount := 0, totalRequests := 0 }
  | .StateHalfOpen => { cb with successCount := 0, failureCount := 0 }
  | .StateOpen => cb

/-- `afterRequest(err)` at time `now`; `err = none` is a success. Appends to
history, prunes, bumps counters, then applies the state logic of the Go
switch. -/
def afterRequest (cb : CircuitBreaker) (now : Nat) (err : Option String) :
    CircuitBreaker :=
  let cb := { cb with requestHistory := cb.requestHistory ++ [(now, err.isNone)] }
  let cb := cleanOldHistory cb now
  let cb := { cb with totalRequests := cb.totalRequests + 1 }
  match err with
  | some e =>
    let cb := { cb with errorCount := cb.errorCount + 1, failureCount := cb.failureCount + 1, successCount := 0, lastError := some e }
    match cb.state with
    | .StateClosed =>
      if shouldOpen cb now then transitionTo cb .StateOpen now else cb
    | .StateHalfOpen => transitionTo cb .StateOpen now
    | .StateOpen => cb
  | none =>
    let cb := { cb with failureCount := 0, successCount := cb.successCount + 1 }
    match cb.state with
    | .StateHalfOpen =>
      if cb.successCount ≥ cb.config.halfOpenMaxRequests then
        transitionTo cb .StateClosed now
      else cb
    | _ => cb

/-! ## Provider registry and selector (part_015, part_001) -/

/-- `ProviderCapabilities` (backend/logging.go), the fields the request
plane consults. -/
structure ProviderCapabilities where
  supportsRefunds : Bool
  supportsBNPL : Bool
  complianceReady : Bool
  maxAmountCents : Int
  minAmountCents : Int
  supportedCurrencies : List String
  supportedRegions : List String
deriving DecidableEq, Repr

/-- `SLAConfig`; `MinSuccessRate` is a float64 carried as a rational. -/
structure SLAConfig where
  maxLatencyP95Ms : Int
  minSuccessRate : ℚ
deriving DecidableEq, Repr

/-- A registered `ProviderConfig`. `name` and `caps` stand for
`Provider.Name()` and `Provider.Capabilities()` of the wrapped provider;
`cbState` is the current state of the owning circuit breaker, which
`RegisterPaymentProvider` guarantees to exist. `priority` is the
`ProviderPriority` enum value (0 primary, 1 secondary, 2 tertiary). -/
structure ProviderConfig where
  name : String
  enabled : Bool
  priority : Nat
  cbState : CircuitState
  caps : ProviderCapabilities
  sla : SLAConfig
deriving DecidableEq, Repr

/-- The selector-facing payment request (backend/logging.go
`PaymentRequest`), restricted to the fields routing reads. -/
structure RoutingRequest where
  amount : Int
  currency : String
  userID : String
  idempotencyKey : String
deriving DecidableEq, Repr

/-- The per-provider filter body of `GetEligiblePaymentProviders`
(part_015): enabled, breaker not OPEN, amount within [min, max], currency
supported. -/
def eligibleFilter (req : RoutingRequest) (config : ProviderConfig) : Bool :=
  config.enabled ∧
    config.cbState ≠ .StateOpen ∧
    ¬ (req.amount < config.caps.minAmountCents ∨
        req.amount > config.caps.maxAmountCents) ∧
    config.caps.supportedCurrencies.contains req.currency

/-- One left-to-right pass of the `sortByPriority` bubble sort (part_015):
adjacent swap when the left priority exceeds the right. -/
def bubblePass : List ProviderConfig → List ProviderConfig
  | [] => []
  | [a] => [a]
  | a :: b :: rest =>
    if a.priority > b.priority then b :: bubblePass (a :: rest)
    else a :: bubblePass (b :: rest)

/-- `sortByPriority` (part_015): n−1 bubble passes. The Go inner loop skips
the already-settled tail; since the comparison is strict, both variants are
stable and produce the same list. -/
def sortByPriority (providers : List ProviderConfig) : List ProviderConfig :=
  Nat.iterate bubblePass (providers.length - 1) providers

/-- `GetEligiblePaymentProviders` (part_015): filter, error when empty
(`none` here), else priority-sorted list. The registry map's iteration order
is whatever order `registry` lists. -/
def GetEligiblePaymentProviders (registry : List ProviderConfig)
    (req : RoutingRequest) : Option (List ProviderConfig) :=
  let eligible := registry.filter (eligibleFilter req)
  if eligible.length = 0 then none else some (sortByPriority eligible)

/-- `GetPaymentProvider(name)` (part_015): lookup by registered name, error
(`none`) when missing or disabled. -/
def GetPaymentProvider (registry : List ProviderConfig) (name : String) :
    Option ProviderConfig :=
  match registry.find? (fun c => c.name = name) with
  | none => none
  | some config => if config.enabled then some config else none

/-- `getProviderLatencyP95` (part_001): SLA hint if positive, else 500 ms. -/
def getProviderLatencyP95 (config : ProviderConfig) : Int :=
  if config.sla.maxLatencyP95Ms > 0 then config.sla.maxLatencyP95Ms else 500

/-- `getProviderSuccessRate` (part_001): fixed 0.95 in this build. -/
def getProviderSuccessRate (_config : ProviderConfig) : ℚ := mkRat 19 20

/-- `getProviderLatencyScore` (part_001): 1 below 100 ms, 0 above 1000 ms,
linear in between. -/
def getProviderLatencyScore (config : ProviderConfig) : ℚ :=
  let p95 := getProviderLatencyP95 config
  if p95 < 100 then 1
  else if p95 > 1000 then 0
  else 1 - (((p95 : ℚ) - 100) / 900)

/-- `getProviderAvailabilityScore` (part_001); the nil-breaker arm is
unreachable for registered providers. -/
def getProviderAvailabilityScore (config : ProviderConfig) : ℚ :=
  match config.cbState with
  | .StateClosed => 1
  | .StateHalfOpen => mkRat 1 2
  | .StateOpen => 0

/-- `calculateHealthScore` (part_001): 0.4·success + 0.3·latency +
0.3·availability. -/
def calculateHealthScore (config : ProviderConfig) : ℚ :=
  getProviderSuccessRate config * mkRat 2 5 +
    getProviderLatencyScore config * mkRat 3 10 +
    getProviderAvailabilityScore config * mkRat 3 10

/-- `isProviderEligible` (part_001): the selector-side eligibility check
used on the affinity path. -/
def isProviderEligible (config : ProviderConfig) (req : RoutingRequest) :
    Bool :=
  if ¬ config.enabled then false
  else if req.amount < config.caps.minAmountCents ∨
      req.amount > config.caps.maxAmountCents then false
  else if ¬ config.caps.supportedCurrencies.contains req.currency then false
  else if config.cbState = .StateOpen then false
  else true

/-- `hashString` (part_001): h ← h·31 + rune over the string, in uint32
arithmetic. -/
def hashString (s : String) : Nat :=
  s.data.foldl (fun h c => (h * 31 + c.toNat) % 2 ^ 32) 0

/-- `selectByPriority` (part_001): head of the eligible list. -/
def selectByPriority (registry : List ProviderConfig) (req : RoutingRequest) :
    Option ProviderConfig :=
  match GetEligiblePaymentProviders registry req with
  | none => none
  | some eligible => eligible.head?

/-- `selectByLeastLatency` (part_001): eligible list reordered ascending by
P95 (`sort.Slice`, modelled as an insertion sort on the same key), head. -/
def selectByLeastLatency (registry : List ProviderConfig)
    (req : RoutingRequest) : Option ProviderConfig :=
  match GetEligiblePaymentProviders registry req with
  | none => none
  | some eligible =>
    (List.insertionSort
      (fun a b => getProviderLatencyP95 a ≤ getProviderLatencyP95 b)
      eligible).head?

/-- `selectByHealthScore` (part_001): score each eligible provider, reorder
descending by score (`sort.Slice`, modelled as an insertion sort on the same
key), return the top config. -/
def selectByHealthScore (registry : List ProviderConfig)
    (req : RoutingRequest) : Option ProviderConfig :=
  match GetEligiblePaymentProviders registry req with
  | none => none
  | some eligible =>
    let scores := eligible.map (fun config => (config, calculateHealthScore config))
    ((List.insertionSort (fun a b => b.2 ≤ a.2) scores).head?).map (·.1)

/-- `selectRoundRobin` (part_001): index the eligible list by
`hash(idempotency_key) mod n`. -/
def selectRoundRobin (registry : List ProviderConfig) (req : RoutingRequest) :
    Option ProviderConfig :=
  match GetEligiblePaymentProviders registry req with
  | none => none
  | some eligible => eligible.get? (hashString req.idempotencyKey % eligible.length)

/-- The affinity-reuse leg of `selectByAffinity` (part_001): when the caller
has a stored affinity to a provider that exists, is enabled and passes
`isProviderEligible`, that provider is reused. `affinityLookup` is the Redis
read of `provider_affinity:<user>` (`none` for miss or error). -/
def affinityCandidate (registry : List ProviderConfig) (req : RoutingRequest)
    (affinityLookup : Option String) : Option ProviderConfig :=
  if req.userID ≠ "" then
    match affinityLookup with
    | some providerName =>
      if providerName ≠ "" then
        match GetPaymentProvider registry providerName with
        | some config =>
          if config.enabled then
            if isProviderEligible config req then some config else none
          else none
        | none => none
      else none
    | none => none
  else none

/-- `selectByAffinity` (part_001): the affinity candidate when one exists,
else fall back to health score. The write back of the new affinity mapping
is an external effect outside the return value. -/
def selectByAffinity (registry : List ProviderConfig) (req : RoutingRequest)
    (affinityLookup : Option String) : Option ProviderConfig :=
  match affinityCandidate registry req affinityLookup with
  | some config => some config
  | none => selectByHealthScore registry req

/-- `SelectProvider` (part_001): dispatch on the strategy string; the Go
switch falls through to priority for `priority` and for anything unknown. -/
def SelectProvider (registry : List ProviderConfig) (strategy : String)
    (req : RoutingRequest) (affinityLookup : Option String) :
    Option ProviderConfig :=
  if strategy = "least_latency" then selectByLeastLatency registry req
  else if strategy = "health_score" then selectByHealthScore registry req
  else if strategy = "affinity" then selectByAffinity registry req affinityLookup
  else if strategy = "round_robin" then selectRoundRobin registry req
  else selectByPriority registry req

/-! ## Retry policy (part_003) -/

/-- Floor of a non-negative rational, computed on the reduced fraction. -/
def qfloorNat (q : ℚ) : Nat := q.num.toNat / q.den

/-- Float64 → `time.Duration` (and float64 → int) conversion: truncation
toward zero, exact on the rationals this code produces. -/
def durationOfRat (q : ℚ) : Int :=
  if 0 ≤ q then (qfloorNat q : Int) else -(qfloorNat (-q) : Int)

/-- `percentile(sorted, p)` (part_000), on an already sorted sample list.
`int(index)` and the float → `Duration` result conversion are truncations
(exact here: `index ≥ 0` after clamping). -/
def percentile (sorted : List Int) (p : ℚ) : Int :=
  if sorted.length = 0 then 0
  else
    let p := if p < 0 then 0 else if p > 100 then 100 else p
    let index : ℚ := (p / 100) * ((sorted.length : ℚ) - 1)
    let lower : Nat := qfloorNat index
    let upper : Nat := lower + 1
    if upper ≥ sorted.length then sorted.getD (sorted.length - 1) 0
    else
      let weight : ℚ := index - (lower : ℚ)
      durationOfRat ((sorted.getD lower 0 : ℚ) * (1 - weight) +
        (sorted.getD upper 0 : ℚ) * weight)

/-- The three percentiles `GetPercentiles()` returns. -/
structure LatencyPercentiles where
  p50 : Int
  p95 : Int
  p99 : Int
deriving DecidableEq, Repr

/-- `GetPercentiles()` (part_000): zero on the empty window, else P50, P95
and P99 of a sorted copy (`sort.Slice` on values, modelled as an insertion
sort — any correct sort of the samples yields this list). -/
def GetPercentiles (samples : List Int) : LatencyPercentiles :=
  if samples.length = 0 then { p50 := 0, p95 := 0, p99 := 0 }
  else
    let sorted := List.insertionSort (fun a b : Int => a ≤ b) samples
    { p50 := percentile sorted 50, p95 := percentile sorted 95,
      p99 := percentile sorted 99 }

/-! ## Theorems: payment state machine -/

theorem setState_spec (m : StatusMap) (id : String) (c : State) :
    ((SetState m id c).2 = true ↔ codeAllowed (m id) c = true) ∧
      (SetState m id c).1 =
        (if codeAllowed (m id) c then setKey m id c.toNat else m) := by
  rcases c <;> rcases h : m id with _ | _ | _ | _ | _ | n <;>
    simp [SetState, codeAllowed, State.toNat, h]

theorem setState_apply_ne (m : StatusMap) (id : String) (c : State)
    (k : String) (hk : k ≠ id) : (SetState m id c).1 k = m k := by
  rw [(setState_spec m id c).2]
  split
  · simp [setKey, hk]
  · rfl

theorem setState_fail_eq (m : StatusMap) (id : String) (c : State)
    (h : (SetState m id c).2 = false) : (SetState m id c).1 = m := by
  rcases hc : codeAllowed (m id) c with _ | _
  · rw [(setState_spec m id c).2, hc]; rfl
  · rw [(setState_spec m id c).1.2 hc] at h; cases h

/-- C1 counterexample: the spec's state graph rejects absent → PROCESSING,
but on a fresh id (whose stored value is the map default 0, the same value
as INITIATED) `SetState` accepts PROCESSING, so the claimed equivalence with
the spec graph is false at this input. -/
theorem c1_counterexample :
    (SetState initialStatus "p" State.PROCESSING).2 = true ∧
      specAllowed none State.PROCESSING = false := by
  constructor
  · rfl
  · rfl

/-- C1 amended: `SetState` succeeds exactly per the transition table the
code implements, in which an absent id is identified with INITIATED (both
read as 0): from 0 it accepts INITIATED, PROCESSING and CANCELLED; from
PROCESSING it accepts SUCCESS, CANCELLED and FAILED; from FAILED it accepts
PROCESSING; everything else fails with INVALID_STATE_CHANGE_REQUEST. On
success the stored state becomes the target and otherwise the store is
untouched, so every observed state sequence is a path in this identified
graph. -/
theorem c1_amended (m : StatusMap) (id : String) (c : State) :
    ((SetState m id c).2 = true ↔ codeAllowed (m id) c = true) ∧
      (SetState m id c).1 =
        (if codeAllowed (m id) c then setKey m id c.toNat else m) :=
  setState_spec m id c

/-- Replay of a call trace against the state store, starting from `m`. -/
def runTrace (m : StatusMap) : List (String × State) → StatusMap
  | [] => m
  | c :: rest => runTrace (SetState m c.1 c.2).1 rest

/-- Whether some call of the trace targets `id` and succeeds, evaluated
along the evolving store. -/
def succeededOn (m : StatusMap) (id : String) : List (String × State) → Bool
  | [] => false
  | c :: rest =>
    (decide (c.1 = id) && (SetState m c.1 c.2).2) ||
      succeededOn (SetState m c.1 c.2).1 id rest

theorem runTrace_untouched (calls : List (String × State)) :
    ∀ m : StatusMap, ∀ id : String, m id = 0 →
      succeededOn m id calls = false → runTrace m calls id = 0 := by
  induction calls with
  | nil => intro m id h _; exact h
  | cons c rest ih =>
    intro m id h hs
    simp only [succeededOn, Bool.or_eq_false_iff, Bool.and_eq_false_iff] at hs
    obtain ⟨h1, h2⟩ := hs
    simp only [runTrace]
    refine ih _ id ?_ h2
    by_cases hc : c.1 = id
    · rcases h1 with h1 | h1
      · simp [hc] at h1
      · rw [setState_fail_eq _ _ _ h1]
        exact h
    · rw [setState_apply_ne _ _ _ _ (fun hx => hc hx.symm), h]

/-- C10: a payment id that was never the subject of a successful `SetState`
call still reads as 0 after any call trace from the empty store, and
`GetState` renders that 0 as INITIATED — the store has no separate absent
value, so an unknown id is indistinguishable from an INITIATED payment. -/
theorem c10_unknown_id_reads_initiated (calls : List (String × State))
    (id : String) (h : succeededOn initialStatus id calls = false) :
    GetState (runTrace initialStatus calls) id = State.INITIATED.toNat ∧
      stateName (GetState (runTrace initialStatus calls) id) = "INITIATED" := by
  have h0 : runTrace initialStatus calls id = 0 :=
    runTrace_untouched calls initialStatus id rfl h
  constructor
  · exact h0
  · unfold GetState
    rw [h0]
    rfl

theorem c10_witness :
    succeededOn initialStatus "p" [("q", .PROCESSING), ("p", .SUCCESS)] = false ∧
      GetState (runTrace initialStatus [("q", .PROCESSING), ("p", .SUCCESS)]) "p" =
        State.INITIATED.toNat :=
  ⟨by decide,
    (c10_unknown_id_reads_initiated [("q", .PROCESSING), ("p", .SUCCESS)] "p"
      (by decide)).1⟩

/-! ## Theorems: payment handler -/

/-- C2: when the stored key matches the request's payment id, the payment is
terminal (SUCCESS or FAILED) and a non-empty result blob is cached, the
charge call replays: HTTP 200, the cached blob byte for byte as the body,
`X-Idempotent-Replay` set, the state store untouched, no dispatch and no
compliance call. -/
theorem c2_idempotent_replay (env : PaymentEnv) (m : StatusMap)
    (req : PaymentReq) (blob : String)
    (hk : env.keyLookup = some req.paymentID) (hne : req.paymentID ≠ "")
    (hterm : GetState m req.paymentID = State.SUCCESS.toNat ∨
      GetState m req.paymentID = State.FAILED.toNat)
    (hblob : env.cachedResult = some blob) (hblobne : blob ≠ "") :
    (paymentPost env m req).httpStatus = 200 ∧
      (paymentPost env m req).rawBody = some blob ∧
      (paymentPost env m req).replayHeader = true ∧
      (paymentPost env m req).newStatus = m ∧
      (paymentPost env m req).dispatched = false ∧
      (paymentPost env m req).complianceCalled = false := by
  have hterm' : m req.paymentID = 3 ∨ m req.paymentID = 4 := by
    simpa [GetState, State.toNat] using hterm
  unfold paymentPost
  by_cases hc : req.currency = "" <;>
    rcases hterm' with h3 | h3 <;>
      simp [hc, hk, hne, hblob, hblobne, GetState, State.toNat, h3]

theorem c2_witness :
    ({ keyLookup := some "pay_1", cachedResult := some "blobdata",
       complianceOK := true : PaymentEnv }.keyLookup = some "pay_1") ∧
      (paymentPost
        { keyLookup := some "pay_1", cachedResult := some "blobdata",
          complianceOK := true }
        (fun _ => 3)
        { id := "o1", amount := 5000, paymentID := "pay_1", currency := "USD",
          userID := "" }).rawBody = some "blobdata" :=
  ⟨rfl,
    (c2_idempotent_replay
      { keyLookup := some "pay_1", cachedResult := some "blobdata",
        complianceOK := true }
      (fun _ => 3)
      { id := "o1", amount := 5000, paymentID := "pay_1", currency := "USD",
        userID := "" }
      "blobdata" rfl (by decide) (Or.inl rfl) rfl (by decide)).2.1⟩

/-- C3: registering the same `(id, amount)` intent twice with no intervening
delete answers the same payment id both times, and the second registration
leaves the whole fingerprint → id store unchanged. Stated over the value
stored at this pair's fingerprint hash and arbitrary fresh UUIDs for the two
calls. -/
theorem c3_register_idempotent (kv : KV) (requestHash freshID1 freshID2 : String) :
    (paymentKeyPost (paymentKeyPost kv requestHash freshID1).1 requestHash
        freshID2).2 =
      (paymentKeyPost kv requestHash freshID1).2 ∧
    (paymentKeyPost (paymentKeyPost kv requestHash freshID1).1 requestHash
        freshID2).1 =
      (paymentKeyPost kv requestHash freshID1).1 := by
  have hnonempty : ("pay_" ++ freshID1) ≠ "" := by
    intro hcontra
    have hlen : ("pay_" ++ freshID1).length = 0 := by rw [hcontra]; rfl
    rw [String.length_append] at hlen
    have h4 : "pay_".length = 4 := rfl
    omega
  unfold paymentKeyPost
  rcases hkv : kv requestHash with _ | v
  · simp [hkv, hnonempty]
  · by_cases hv : v = ""
    · simp [hkv, hv, hnonempty]
    · simp [hkv, hv]

/-- C6 counterexample: a mismatching charge for a fresh payment id returns
401 PAYMENT_ID_MISMATCH, but the attempted transition to FAILED is illegal
from the fresh (INITIATED-valued) state, so the state afterwards is not
FAILED — refuting the claim that the state afterwards is always FAILED. -/
theorem c6_counterexample :
    (paymentPost
        { keyLookup := some "pay_real", cachedResult := none,
          complianceOK := true }
        initialStatus
        { id := "o1", amount := 5000, paymentID := "pay_bogus",
          currency := "USD", userID := "" }).httpStatus = 401 ∧
      (paymentPost
        { keyLookup := some "pay_real", cachedResult := none,
          complianceOK := true }
        initialStatus
        { id := "o1", amount := 5000, paymentID := "pay_bogus",
          currency := "USD", userID := "" }).errorCode =
        some "PAYMENT_ID_MISMATCH" ∧
      ¬ GetState
        (paymentPost
          { keyLookup := some "pay_real", cachedResult := none,
            complianceOK := true }
          initialStatus
          { id := "o1", amount := 5000, paymentID := "pay_bogus",
            currency := "USD", userID := "" }).newStatus "pay_bogus" =
        State.FAILED.toNat := by
  refine ⟨rfl, rfl, ?_⟩
  decide

/-- C6 amended: on a payment-id mismatch the handler answers HTTP 401 with
PAYMENT_ID_MISMATCH and attempts the FAILED transition, so the state
afterwards is FAILED exactly when the prior stored state allowed it — when
it was PROCESSING (transition applied) or already FAILED; any other prior
state (in particular a fresh id, which reads as INITIATED) is left
unchanged. -/
theorem c6_amended (env : PaymentEnv) (m : StatusMap) (req : PaymentReq)
    (cached : String) (hpid : req.paymentID ≠ "")
    (hk : env.keyLookup = some cached) (hcne : cached ≠ "")
    (hmm : req.paymentID ≠ cached) :
    (paymentPost env m req).httpStatus = 401 ∧
      (paymentPost env m req).errorCode = some "PAYMENT_ID_MISMATCH" ∧
      (paymentPost env m req).newStatus =
        (SetState m req.paymentID State.FAILED).1 ∧
      (GetState (paymentPost env m req).newStatus req.paymentID =
          State.FAILED.toNat ↔
        (m req.paymentID = State.PROCESSING.toNat ∨
          m req.paymentID = State.FAILED.toNat)) := by
  have hmain : paymentPost env m req =
      { httpStatus := 401, errorCode := some "PAYMENT_ID_MISMATCH",
        statusField := stateName
          (GetState (SetState m req.paymentID State.FAILED).1 req.paymentID),
        rawBody := none, replayHeader := false,
        newStatus := (SetState m req.paymentID State.FAILED).1,
        dispatched := false, complianceCalled := false } := by
    unfold paymentPost
    by_cases hc : req.currency = "" <;> simp [hc, hk, hpid, hcne, hmm]
  refine ⟨by rw [hmain], by rw [hmain], by rw [hmain], ?_⟩
  rw [hmain]
  show (SetState m req.paymentID State.FAILED).1 req.paymentID = 4 ↔ _
  rw [(setState_spec m req.paymentID State.FAILED).2]
  rcases h : m req.paymentID with _ | _ | _ | _ | _ | n <;>
    simp [codeAllowed, setKey, State.toNat, h]

theorem c6_witness :
    ("pay_bogus" : String) ≠ "" ∧
      (GetState
        (paymentPost
          { keyLookup := some "pay_real", cachedResult := none,
            complianceOK := true }
          (fun _ => 1)
          { id := "o1", amount := 5000, paymentID := "pay_bogus",
            currency := "USD", userID := "" }).newStatus "pay_bogus" =
          State.FAILED.toNat ↔
        ((fun _ => 1 : StatusMap) "pay_bogus" = State.PROCESSING.toNat ∨
          (fun _ => 1 : StatusMap) "pay_bogus" = State.FAILED.toNat)) :=
  ⟨by decide,
    (c6_amended
      { keyLookup := some "pay_real", cachedResult := none,
        complianceOK := true }
      (fun _ => 1)
      { id := "o1", amount := 5000, paymentID := "pay_bogus",
        currency := "USD", userID := "" }
      "pay_real" (by decide) rfl (by decide) (by decide)).2.2.2⟩

/-- C7 counterexample: a charge with amount ≤ 0 and a four-letter currency,
whose payment key matches, is not rejected by any input validation — the
handler answers 200 and launches the dispatch — refuting the claim that
amount ≤ 0 or a non-3-letter currency is rejected before dispatch. -/
theorem c7_counterexample :
    ((-5 : Int) ≤ 0 ∧ ("USDX" : String).length ≠ 3) ∧
      (paymentPost
        { keyLookup := some "pay_1", cachedResult := none,
          complianceOK := true }
        initialStatus
        { id := "o1", amount := -5, paymentID := "pay_1", currency := "USDX",
          userID := "" }).dispatched = true ∧
      (paymentPost
        { keyLookup := some "pay_1", cachedResult := none,
          complianceOK := true }
        initialStatus
        { id := "o1", amount := -5, paymentID := "pay_1", currency := "USDX",
          userID := "" }).httpStatus = 200 := by
  refine ⟨by decide, ?_, ?_⟩ <;> decide

/-- C7 amended: the dispatcher's input validation checks only that
`payment_id` is present (rejecting with 400 PAYMENT_ID_REQUIRED and no
dispatch); amount and currency are never validated. A request with a
matching payment key and a fresh payment state is dispatched with state
moved to PROCESSING — for any amount and any currency string — whenever the
compliance gate does not both trigger and fail, that is, whenever the
amount is below the compliance threshold, or no user id is present, or the
compliance check approves. In particular every charge with amount ≤ 0, and
every below-threshold charge with a non-3-letter currency, is dispatched
rather than rejected. -/
theorem c7_amended (env : PaymentEnv) (m : StatusMap) (req : PaymentReq) :
    (req.paymentID = "" →
      (paymentPost env m req).httpStatus = 400 ∧
        (paymentPost env m req).errorCode = some "PAYMENT_ID_REQUIRED" ∧
        (paymentPost env m req).dispatched = false ∧
        (paymentPost env m req).newStatus = m) ∧
    (req.paymentID ≠ "" → env.keyLookup = some req.paymentID →
      (req.amount < ComplianceThreshold ∨ req.userID = "" ∨
        env.complianceOK = true) →
      m req.paymentID = 0 →
      (paymentPost env m req).httpStatus = 200 ∧
        (paymentPost env m req).dispatched = true ∧
        GetState (paymentPost env m req).newStatus req.paymentID =
          State.PROCESSING.toNat) := by
  constructor
  · intro hempty
    unfold paymentPost
    by_cases hc : req.currency = "" <;> simp [hc, hempty]
  · intro hne hk hgate h0
    have hm1 : (SetState m req.paymentID State.INITIATED).1 =
        setKey m req.paymentID 0 := by
      rw [(setState_spec m req.paymentID State.INITIATED).2]
      simp [codeAllowed, h0, State.toNat]
    have hm1app : (SetState m req.paymentID State.INITIATED).1 req.paymentID = 0 := by
      rw [hm1]; simp [setKey]
    have hm2 : (SetState (SetState m req.paymentID State.INITIATED).1
        req.paymentID State.PROCESSING).1 req.paymentID = 1 := by
      rw [(setState_spec _ req.paymentID State.PROCESSING).2]
      simp [codeAllowed, hm1app, State.toNat, setKey]
    have hok : req.amount ≥ ComplianceThreshold ∧ req.userID ≠ "" →
        env.complianceOK = true := by
      intro hcompl
      rcases hgate with hg | hg | hg
      · exact absurd hcompl.1 (not_le.mpr hg)
      · exact absurd hg hcompl.2
      · exact hg
    unfold paymentPost
    by_cases hc : req.currency = "" <;>
      by_cases hcompl : req.amount ≥ ComplianceThreshold ∧ req.userID ≠ "" <;>
        first
          | simp [hc, hne, hk, h0, hcompl, hok hcompl, GetState, State.toNat,
              hm2]
          | simp [hc, hne, hk, h0, hcompl, GetState, State.toNat, hm2]

theorem c7_witness :
    (("pay_1" : String) ≠ "" ∧ (-5 : Int) < ComplianceThreshold) ∧
      (paymentPost
        { keyLookup := some "pay_1", cachedResult := none,
          complianceOK := true }
        initialStatus
        { id := "o1", amount := -5, paymentID := "pay_1", currency := "USDX",
          userID := "" }).dispatched = true :=
  ⟨⟨by decide, by decide⟩,
    ((c7_amended
      { keyLookup := some "pay_1", cachedResult := none,
        complianceOK := true }
      initialStatus
      { id := "o1", amount := -5, paymentID := "pay_1", currency := "USDX",
        userID := "" }).2 (by decide) rfl (Or.inl (by decide)) rfl).2.1⟩

/-! ## Theorems: circuit breaker -/

/-- C4 counterexample: a CLOSED breaker under default config (failure
threshold 10, rate threshold 0.5) that has just seen 9 failures inside the
window records a success: the pruned window then holds 10 samples with error
rate 9/10 ≥ 0.5 (and the cumulative request counter is 10), yet the breaker
stays CLOSED because `afterRequest` consults `shouldOpen` only on failures —
refuting the claimed "exactly when" condition. The starting breaker is what
nine failed requests at time 50 produce from a fresh breaker. -/
theorem c4_counterexample :
    ({ name := "prov", state := .StateClosed, failureCount := 9,
        successCount := 0, totalRequests := 9, errorCount := 9,
        lastStateChange := 0, lastError := some "boom",
        requestHistory := List.replicate 9 (50, false),
        config := DefaultCircuitBreakerConfig : CircuitBreaker }.state =
        CircuitState.StateClosed) ∧
      (afterRequest
        { name := "prov", state := .StateClosed, failureCount := 9,
          successCount := 0, totalRequests := 9, errorCount := 9,
          lastStateChange := 0, lastError := some "boom",
          requestHistory := List.replicate 9 (50, false),
          config := DefaultCircuitBreakerConfig } 60 none).requestHistory.length =
        10 ∧
      calculateErrorRate
        (afterRequest
          { name := "prov", state := .StateClosed, failureCount := 9,
            successCount := 0, totalRequests := 9, errorCount := 9,
            lastStateChange := 0, lastError := some "boom",
            requestHistory := List.replicate 9 (50, false),
            config := DefaultCircuitBreakerConfig } 60 none) 60 ≥
        DefaultCircuitBreakerConfig.errorRateThreshold ∧
      (afterRequest
        { name := "prov", state := .StateClosed, failureCount := 9,
          successCount := 0, totalRequests := 9, errorCount := 9,
          lastStateChange := 0, lastError := some "boom",
          requestHistory := List.replicate 9 (50, false),
          config := DefaultCircuitBreakerConfig } 60 none).totalRequests = 10 ∧
      (afterRequest
        { name := "prov", state := .StateClosed, failureCount := 9,
          successCount := 0, totalRequests := 9, errorCount := 9,
          lastStateChange := 0, lastError := some "boom",
          requestHistory := List.replicate 9 (50, false),
          config := DefaultCircuitBreakerConfig } 60 none).state =
        CircuitState.StateClosed := by
  refine ⟨rfl, by decide, ?_, by decide, by decide⟩
  show calculateErrorRate _ 60 ≥ mkRat 1 2
  unfold calculateErrorRate afterRequest cleanOldHistory
  norm_num [inWindow, DefaultCircuitBreakerConfig, List.replicate, List.filter]

/-- C4 amended: for a CLOSED breaker, recording a success always leaves it
CLOSED; recording a failure transitions it to OPEN exactly when, after the
update, the consecutive-failure count reaches `failure_threshold`, or the
windowed error rate reaches `rate_threshold` while the breaker's cumulative
request counter (`totalRequests`, reset only when the breaker re-enters
CLOSED — not the pruned window size) is at least 10; otherwise it remains
CLOSED. -/
theorem c4_amended (cb : CircuitBreaker) (now : Nat) (err : Option String)
    (hclosed : cb.state = .StateClosed) :
    (err = none → (afterRequest cb now err).state = .StateClosed) ∧
      (∀ e, err = some e →
        ((afterRequest cb now err).state = .StateOpen ∨
          (afterRequest cb now err).state = .StateClosed) ∧
        ((afterRequest cb now err).state = .StateOpen ↔
          ((afterRequest cb now err).failureCount ≥
              cb.config.failureThreshold ∨
            (calculateErrorRate (afterRequest cb now err) now ≥
                cb.config.errorRateThreshold ∧
              (afterRequest cb now err).totalRequests ≥ 10)))) := by
  constructor
  · intro hnone
    subst hnone
    simp only [afterRequest, cleanOldHistory, Option.isNone_none, hclosed]
  · intro e he
    subst he
    simp only [afterRequest, cleanOldHistory, Option.isNone_some, hclosed]
    split <;> rename_i ho
    · exact ⟨Or.inl rfl, iff_of_true rfl (of_decide_eq_true ho)⟩
    · exact ⟨Or.inr rfl, iff_of_false (by simp)
        (fun hp => ho (decide_eq_true hp))⟩

theorem c4_witness :
    (NewCircuitBreaker "p" DefaultCircuitBreakerConfig 0).state =
        CircuitState.StateClosed ∧
      (afterRequest (NewCircuitBreaker "p" DefaultCircuitBreakerConfig 0) 0
          none).state = CircuitState.StateClosed :=
  ⟨rfl,
    (c4_amended (NewCircuitBreaker "p" DefaultCircuitBreakerConfig 0) 0 none
      rfl).1 rfl⟩

/-! ## Theorems: retry policy -/

theorem qfloorNat_le (q : ℚ) (hq : 0 ≤ q) : (qfloorNat q : ℚ) ≤ q := by
  have hden : (0 : ℚ) < (q.den : ℚ) := by exact_mod_cast q.den_pos
  have hn : 0 ≤ q.num := Rat.num_nonneg.mpr hq
  conv_rhs => rw [← Rat.num_div_den q]
  rw [le_div_iff hden]
  have h1 : qfloorNat q * q.den ≤ q.num.toNat := Nat.div_mul_le_self _ _
  calc (qfloorNat q : ℚ) * (q.den : ℚ) = ((qfloorNat q * q.den : Nat) : ℚ) := by
        push_cast; ring
    _ ≤ ((q.num.toNat : Nat) : ℚ) := by exact_mod_cast h1
    _ = (q.num : ℚ) := by
        have := Int.toNat_of_nonneg hn
        exact_mod_cast congrArg (fun z : Int => (z : ℚ)) this

theorem lt_qfloorNat_add_one (q : ℚ) (hq : 0 ≤ q) :
    q < (qfloorNat q : ℚ) + 1 := by
  have hden : (0 : ℚ) < (q.den : ℚ) := by exact_mod_cast q.den_pos
  have hn : 0 ≤ q.num := Rat.num_nonneg.mpr hq
  have h2 : q.num.toNat < (qfloorNat q + 1) * q.den := by
    have h := Nat.div_add_mod q.num.toNat q.den
    have hmod := Nat.mod_lt q.num.toNat q.den_pos
    calc q.num.toNat = q.den * (q.num.toNat / q.den) + q.num.toNat % q.den :=
          h.symm
      _ < q.den * (q.num.toNat / q.den) + q.den := by omega
      _ = (q.num.toNat / q.den + 1) * q.den := by ring
  conv_lhs => rw [← Rat.num_div_den q]
  rw [div_lt_iff hden]
  calc (q.num : ℚ) = ((q.num.toNat : Nat) : ℚ) := by
        have := Int.toNat_of_nonneg hn
        exact_mod_cast (congrArg (fun z : Int => (z : ℚ)) this).symm
    _ < (((qfloorNat q + 1) * q.den : Nat) : ℚ) := by exact_mod_cast h2
    _ = ((qfloorNat q : ℚ) + 1) * (q.den : ℚ) := by push_cast; ring

theorem qfloorNat_mono {p q : ℚ} (hp : 0 ≤ p) (hpq : p ≤ q) :
    qfloorNat p ≤ qfloorNat q := by
  have hq : 0 ≤ q := le_trans hp hpq
  have h1 : (qfloorNat p : ℚ) < (qfloorNat q : ℚ) + 1 :=
    lt_of_le_of_lt (le_trans (qfloorNat_le p hp) hpq)
      (lt_qfloorNat_add_one q hq)
  have h2 : (qfloorNat p : ℚ) < ((qfloorNat q + 1 : Nat) : ℚ) := by
    push_cast
    exact h1
  have := (Nat.cast_lt (α := ℚ)).mp h2
  omega

theorem durationOfRat_mono {a b : ℚ} (h : a ≤ b) :
    durationOfRat a ≤ durationOfRat b := by
  unfold durationOfRat
  by_cases ha : 0 ≤ a
  · rw [if_pos ha, if_pos (le_trans ha h)]
    exact_mod_cast qfloorNat_mono ha h
  · rw [if_neg ha]
    by_cases hb : 0 ≤ b
    · rw [if_pos hb]
      omega
    · rw [if_neg hb]
      have hbn : 0 ≤ -b := by linarith
      have : qfloorNat (-b) ≤ qfloorNat (-a) :=
        qfloorNat_mono hbn (by linarith)
      omega

theorem durationOfRat_intCast (n : Int) : durationOfRat ((n : Int) : ℚ) = n := by
  unfold durationOfRat qfloorNat
  by_cases hn : (0 : ℚ) ≤ (n : ℚ)
  · rw [if_pos hn, Rat.intCast_num, Rat.intCast_den]
    have hn' : 0 ≤ n := by exact_mod_cast hn
    simp [Int.toNat_of_nonneg hn']
  · rw [if_neg hn]
    have hneg : ((-n : Int) : ℚ) = -((n : Int) : ℚ) := by push_cast; ring
    rw [← hneg, Rat.intCast_num, Rat.intCast_den]
    have hn' : 0 ≤ -n := by
      have : ¬ (0 : Int) ≤ n := fun hc => hn (by exact_mod_cast hc)
      omega
    simp [Int.toNat_of_nonneg hn']

theorem sorted_getD_mono (l : List Int)
    (hl : List.Pairwise (fun a b : Int => a ≤ b) l) {i j : Nat} (hij : i ≤ j)
    (hj : j < l.length) : l.getD i 0 ≤ l.getD j 0 := by
  rcases Nat.eq_or_lt_of_le hij with rfl | hlt
  · exact le_refl _
  · rw [List.getD_eq_getElem l 0 (lt_trans hlt hj), List.getD_eq_getElem l 0 hj]
    exact List.pairwise_iff_getElem.mp hl i j _ _ hlt

theorem percentile_mono (l : List Int)
    (hl : List.Pairwise (fun a b : Int => a ≤ b) l) {p q : ℚ} (hp : 0 ≤ p)
    (hpq : p ≤ q) (hq100 : q ≤ 100) : percentile l p ≤ percentile l q := by
  unfold percentile
  by_cases h0 : l.length = 0
  · rw [if_pos h0, if_pos h0]
  · rw [if_neg h0, if_neg h0]
    have hq0 : 0 ≤ q := le_trans hp hpq
    have hp100 : p ≤ 100 := le_trans hpq hq100
    simp only [if_neg (not_lt.mpr hp), if_neg (not_lt.mpr hp100),
      if_neg (not_lt.mpr hq0), if_neg (not_lt.mpr hq100)]
    set n := l.length with hn
    set ip : ℚ := p / 100 * ((n : ℚ) - 1) with hip
    set iq : ℚ := q / 100 * ((n : ℚ) - 1) with hiq
    have hn1 : 1 ≤ n := Nat.one_le_iff_ne_zero.mpr h0
    have hnn : (0 : ℚ) ≤ (n : ℚ) - 1 := by
      have : (1 : ℚ) ≤ (n : ℚ) := by exact_mod_cast hn1
      linarith
    have hip0 : 0 ≤ ip := by
      rw [hip]
      exact mul_nonneg (div_nonneg hp (by norm_num)) hnn
    have hiq0 : 0 ≤ iq := by
      rw [hiq]
      exact mul_nonneg (div_nonneg hq0 (by norm_num)) hnn
    have hipq : ip ≤ iq := by
      rw [hip, hiq]
      have hd : p / 100 ≤ q / 100 := by linarith
      exact mul_le_mul_of_nonneg_right hd hnn
    set lp := qfloorNat ip with hlp
    set lq := qfloorNat iq with hlq
    have hlpq : lp ≤ lq := qfloorNat_mono hip0 hipq
    have hwp0 : (0 : ℚ) ≤ ip - (lp : ℚ) := sub_nonneg.mpr (qfloorNat_le ip hip0)
    have hwp1 : ip - (lp : ℚ) < 1 := by
      have := lt_qfloorNat_add_one ip hip0
      linarith
    have hwq0 : (0 : ℚ) ≤ iq - (lq : ℚ) := sub_nonneg.mpr (qfloorNat_le iq hiq0)
    have hwq1 : iq - (lq : ℚ) < 1 := by
      have := lt_qfloorNat_add_one iq hiq0
      linarith
    by_cases hbp : lp + 1 ≥ n
    · have hbq : lq + 1 ≥ n := by omega
      rw [if_pos hbp, if_pos hbq]
    · have hbp' : lp + 1 < n := by omega
      rw [if_neg hbp]
      have hab : l.getD lp 0 ≤ l.getD (lp + 1) 0 :=
        sorted_getD_mono l hl (Nat.le_succ lp) hbp'
      have habq : ((l.getD lp 0 : Int) : ℚ) ≤ ((l.getD (lp + 1) 0 : Int) : ℚ) := by
        exact_mod_cast hab
      have hblendp_ub :
          ((l.getD lp 0 : Int) : ℚ) * (1 - (ip - (lp : ℚ))) +
              ((l.getD (lp + 1) 0 : Int) : ℚ) * (ip - (lp : ℚ)) ≤
            ((l.getD (lp + 1) 0 : Int) : ℚ) := by
        nlinarith [mul_nonneg (by linarith : (0:ℚ) ≤ 1 - (ip - (lp : ℚ)))
          (by linarith : (0:ℚ) ≤ ((l.getD (lp + 1) 0 : Int) : ℚ) -
            ((l.getD lp 0 : Int) : ℚ))]
      by_cases hbq : lq + 1 ≥ n
      · rw [if_pos hbq]
        have h1 := durationOfRat_mono hblendp_ub
        rw [durationOfRat_intCast] at h1
        exact le_trans h1 (sorted_getD_mono l hl (by omega) (by omega))
      · have hbq' : lq + 1 < n := by omega
        rw [if_neg hbq]
        rcases Nat.eq_or_lt_of_le hlpq with heq | hlt
        · rw [← heq]
          apply durationOfRat_mono
          have hw : ip - (lp : ℚ) ≤ iq - (lp : ℚ) := by linarith
          nlinarith [mul_nonneg (by linarith : (0:ℚ) ≤ iq - (lp : ℚ) - (ip - (lp : ℚ)))
            (by linarith : (0:ℚ) ≤ ((l.getD (lp + 1) 0 : Int) : ℚ) -
              ((l.getD lp 0 : Int) : ℚ))]
        · have h1 : durationOfRat
              (((l.getD lp 0 : Int) : ℚ) * (1 - (ip - (lp : ℚ))) +
                ((l.getD (lp + 1) 0 : Int) : ℚ) * (ip - (lp : ℚ))) ≤
              l.getD (lp + 1) 0 := by
            have := durationOfRat_mono hblendp_ub
            rwa [durationOfRat_intCast] at this
          have h2 : l.getD (lp + 1) 0 ≤ l.getD lq 0 :=
            sorted_getD_mono l hl (by omega) (by omega)
          have habq2 : ((l.getD lq 0 : Int) : ℚ) ≤
              ((l.getD (lq + 1) 0 : Int) : ℚ) := by
            exact_mod_cast sorted_getD_mono l hl (Nat.le_succ lq) hbq'
          have hlb : ((l.getD lq 0 : Int) : ℚ) ≤
              ((l.getD lq 0 : Int) : ℚ) * (1 - (iq - (lq : ℚ))) +
                ((l.getD (lq + 1) 0 : Int) : ℚ) * (iq - (lq : ℚ)) := by
            nlinarith [mul_nonneg hwq0
              (by linarith : (0:ℚ) ≤ ((l.getD (lq + 1) 0 : Int) : ℚ) -
                ((l.getD lq 0 : Int) : ℚ))]
          have h3 : l.getD lq 0 ≤ durationOfRat
              (((l.getD lq 0 : Int) : ℚ) * (1 - (iq - (lq : ℚ))) +
                ((l.getD (lq + 1) 0 : Int) : ℚ) * (iq - (lq : ℚ))) := by
            have := durationOfRat_mono hlb
            rwa [durationOfRat_intCast] at this
          omega

/-- C9: for a non-empty latency window the computed percentiles satisfy
P50 ≤ P95 ≤ P99, and the empty window yields zero for all three. -/
theorem c9_percentile_order (samples : List Int) :
    (samples.length ≠ 0 →
      (GetPercentiles samples).p50 ≤ (GetPercentiles samples).p95 ∧
        (GetPercentiles samples).p95 ≤ (GetPercentiles samples).p99) ∧
    (samples.length = 0 →
      (GetPercentiles samples).p50 = 0 ∧ (GetPercentiles samples).p95 = 0 ∧
        (GetPercentiles samples).p99 = 0) := by
  constructor
  · intro hne
    unfold GetPercentiles
    rw [if_neg hne]
    have hsorted : List.Pairwise (fun a b : Int => a ≤ b)
        (List.insertionSort (fun a b : Int => a ≤ b) samples) :=
      List.sorted_insertionSort _ samples
    exact ⟨percentile_mono _ hsorted (by norm_num) (by norm_num) (by norm_num),
      percentile_mono _ hsorted (by norm_num) (by norm_num) (by norm_num)⟩
  · intro he
    unfold GetPercentiles
    rw [if_pos he]
    exact ⟨rfl, rfl, rfl⟩

theorem c9_witness :
    ([5, 1, 9] : List Int).length ≠ 0 ∧
      ((GetPercentiles [5, 1, 9]).p50 ≤ (GetPercentiles [5, 1, 9]).p95 ∧
        (GetPercentiles [5, 1, 9]).p95 ≤ (GetPercentiles [5, 1, 9]).p99) :=
  ⟨by decide, (c9_percentile_order [5, 1, 9]).1 (by decide)⟩

/-! ## Theorems: provider selection -/

theorem bubblePass_perm_aux :
    ∀ (k : Nat) (l : List ProviderConfig), l.length ≤ k →
      (bubblePass l).Perm l := by
  intro k
  induction k with
  | zero =>
    intro l hl
    have hnil : l = [] := List.eq_nil_of_length_eq_zero (Nat.le_zero.mp hl)
    subst hnil
    simp [bubblePass]
  | succ k ih =>
    intro l hl
    match l with
    | [] => simp [bubblePass]
    | [a] => simp [bubblePass]
    | a :: b :: rest =>
      rw [bubblePass]
      have hlen : (a :: rest).length ≤ k := by
        simp at hl ⊢
        omega
      have hlen' : (b :: rest).length ≤ k := by
        simp at hl ⊢
        omega
      by_cases hab : a.priority > b.priority
      · rw [if_pos hab]
        exact ((ih _ hlen).cons b).trans (List.Perm.swap a b rest)
      · rw [if_neg hab]
        exact (ih _ hlen').cons a

theorem bubblePass_perm (l : List ProviderConfig) : (bubblePass l).Perm l :=
  bubblePass_perm_aux l.length l (le_refl _)

theorem sortByPriority_perm (l : List ProviderConfig) :
    (sortByPriority l).Perm l := by
  unfold sortByPriority
  generalize l.length - 1 = k
  induction k generalizing l with
  | zero => exact List.Perm.refl _
  | succ k ih =>
    rw [Function.iterate_succ_apply]
    exact (ih (bubblePass l)).trans (bubblePass_perm l)

theorem eligibleFilter_spec {req : RoutingRequest} {c : ProviderConfig}
    (h : eligibleFilter req c = true) :
    c.enabled = true ∧ c.cbState ≠ CircuitState.StateOpen ∧
      c.caps.minAmountCents ≤ req.amount ∧
      req.amount ≤ c.caps.maxAmountCents ∧
      req.currency ∈ c.caps.supportedCurrencies := by
  unfold eligibleFilter at h
  simp only [decide_eq_true_eq, not_or, not_lt] at h
  obtain ⟨h1, h2, ⟨h3, h4⟩, h5⟩ := h
  refine ⟨h1, h2, h3, h4, ?_⟩
  simpa using h5

theorem mem_getEligible {registry : List ProviderConfig}
    {req : RoutingRequest} {l : List ProviderConfig} {c : ProviderConfig}
    (h : GetEligiblePaymentProviders registry req = some l) (hc : c ∈ l) :
    eligibleFilter req c = true := by
  unfold GetEligiblePaymentProviders at h
  by_cases hz : (registry.filter (eligibleFilter req)).length = 0
  · rw [if_pos hz] at h
    cases h
  · rw [if_neg hz] at h
    have hl : l = sortByPriority (registry.filter (eligibleFilter req)) :=
      (Option.some.injEq _ _ ▸ h).symm
    subst hl
    have hmem : c ∈ registry.filter (eligibleFilter req) :=
      ((sortByPriority_perm _).mem_iff).mp hc
    exact (List.mem_filter.mp hmem).2

theorem isProviderEligible_spec {c : ProviderConfig} {req : RoutingRequest}
    (h : isProviderEligible c req = true) :
    c.enabled = true ∧ c.cbState ≠ CircuitState.StateOpen ∧
      c.caps.minAmountCents ≤ req.amount ∧
      req.amount ≤ c.caps.maxAmountCents ∧
      req.currency ∈ c.caps.supportedCurrencies := by
  unfold isProviderEligible at h
  split_ifs at h with h1 h2 h3 h4
  · push_neg at h2
    refine ⟨by simpa using h1, h4, h2.1, h2.2, by simpa using h3⟩

theorem eligible_of_priority {registry : List ProviderConfig}
    {req : RoutingRequest} {config : ProviderConfig}
    (h : selectByPriority registry req = some config) :
    eligibleFilter req config = true := by
  unfold selectByPriority at h
  rcases hge : GetEligiblePaymentProviders registry req with _ | el
  · simp only [hge] at h
    exact Option.noConfusion h
  · simp only [hge] at h
    exact mem_getEligible hge (List.mem_of_mem_head? (by simp [h]))

theorem eligible_of_leastLatency {registry : List ProviderConfig}
    {req : RoutingRequest} {config : ProviderConfig}
    (h : selectByLeastLatency registry req = some config) :
    eligibleFilter req config = true := by
  unfold selectByLeastLatency at h
  rcases hge : GetEligiblePaymentProviders registry req with _ | el
  · simp only [hge] at h
    exact Option.noConfusion h
  · simp only [hge] at h
    have hmem : config ∈ List.insertionSort
        (fun a b => getProviderLatencyP95 a ≤ getProviderLatencyP95 b) el :=
      List.mem_of_mem_head? (by simp [h])
    exact mem_getEligible hge ((List.perm_insertionSort _ el).mem_iff.mp hmem)

theorem eligible_of_healthScore {registry : List ProviderConfig}
    {req : RoutingRequest} {config : ProviderConfig}
    (h : selectByHealthScore registry req = some config) :
    eligibleFilter req config = true := by
  unfold selectByHealthScore at h
  rcases hge : GetEligiblePaymentProviders registry req with _ | el
  · simp only [hge] at h
    exact Option.noConfusion h
  · simp only [hge, Option.map_eq_some'] at h
    obtain ⟨pair, hhead, hfst⟩ := h
    have hmem : pair ∈ List.insertionSort (fun a b => b.2 ≤ a.2)
        (el.map (fun config => (config, calculateHealthScore config))) :=
      List.mem_of_mem_head? (by simp [hhead])
    have hmem2 : pair ∈
        el.map (fun config => (config, calculateHealthScore config)) :=
      (List.perm_insertionSort _ _).mem_iff.mp hmem
    obtain ⟨c', hc', hpair⟩ := List.mem_map.mp hmem2
    have hcc : config = c' := by
      rw [← hfst, ← hpair]
    subst hcc
    exact mem_getEligible hge hc'

theorem eligible_of_roundRobin {registry : List ProviderConfig}
    {req : RoutingRequest} {config : ProviderConfig}
    (h : selectRoundRobin registry req = some config) :
    eligibleFilter req config = true := by
  unfold selectRoundRobin at h
  rcases hge : GetEligiblePaymentProviders registry req with _ | el
  · simp only [hge] at h
    exact Option.noConfusion h
  · simp only [hge] at h
    exact mem_getEligible hge (List.get?_mem h)

theorem affinityCandidate_spec {registry : List ProviderConfig}
    {req : RoutingRequest} {config : ProviderConfig}
    {affinityLookup : Option String}
    (h : affinityCandidate registry req affinityLookup = some config) :
    isProviderEligible config req = true := by
  unfold affinityCandidate at h
  split_ifs at h with hu
  split at h
  all_goals try exact Option.noConfusion h
  rename_i name
  split_ifs at h with hname
  split at h
  all_goals try exact Option.noConfusion h
  rename_i c0 hgp
  split_ifs at h with hen hel
  have hc0 : c0 = config := by injection h
  subst hc0
  exact hel

theorem eligible_props_of_affinity {registry : List ProviderConfig}
    {req : RoutingRequest} {config : ProviderConfig}
    {affinityLookup : Option String}
    (h : selectByAffinity registry req affinityLookup = some config) :
    config.enabled = true ∧ config.cbState ≠ CircuitState.StateOpen ∧
      config.caps.minAmountCents ≤ req.amount ∧
      req.amount ≤ config.caps.maxAmountCents ∧
      req.currency ∈ config.caps.supportedCurrencies := by
  unfold selectByAffinity at h
  rcases hcand : affinityCandidate registry req affinityLookup with _ | c
  · simp only [hcand] at h
    exact eligibleFilter_spec (eligible_of_healthScore h)
  · simp only [hcand] at h
    have hc : c = config := by
      injection h
    subst hc
    exact isProviderEligible_spec (affinityCandidate_spec hcand)

/-- C5: whatever routing strategy string is configured (including the
default fallthrough), a provider returned by `SelectProvider` is enabled,
its circuit breaker is not OPEN, the request amount lies within its
[min, max] capability inclusive, and the request currency is among its
supported currencies. -/
theorem c5_selected_provider_eligible (registry : List ProviderConfig)
    (strategy : String) (req : RoutingRequest)
    (affinityLookup : Option String) (config : ProviderConfig)
    (h : SelectProvider registry strategy req affinityLookup = some config) :
    config.enabled = true ∧ config.cbState ≠ CircuitState.StateOpen ∧
      config.caps.minAmountCents ≤ req.amount ∧
      req.amount ≤ config.caps.maxAmountCents ∧
      req.currency ∈ config.caps.supportedCurrencies := by
  unfold SelectProvider at h
  split_ifs at h
  · exact eligibleFilter_spec (eligible_of_leastLatency h)
  · exact eligibleFilter_spec (eligible_of_healthScore h)
  · exact eligible_props_of_affinity h
  · exact eligibleFilter_spec (eligible_of_roundRobin h)
  · exact eligibleFilter_spec (eligible_of_priority h)

/-- Capabilities of the witness fixture provider. -/
def stripeCapsFixture : ProviderCapabilities :=
  { supportsRefunds := true, supportsBNPL := false, complianceReady := true,
    maxAmountCents := 10000000, minAmountCents := 50,
    supportedCurrencies := ["USD", "EUR"], supportedRegions := ["US"] }

/-- A concrete registered provider used to exercise the selector. -/
def stripeFixture : ProviderConfig :=
  { name := "stripe", enabled := true, priority := 0,
    cbState := CircuitState.StateClosed, caps := stripeCapsFixture,
    sla := { maxLatencyP95Ms := 500, minSuccessRate := mkRat 19 20 } }

/-- A concrete routing request used to exercise the selector. -/
def reqFixture : RoutingRequest :=
  { amount := 5000, currency := "USD", userID := "", idempotencyKey := "k1" }

theorem c5_witness :
    SelectProvider [stripeFixture] "priority" reqFixture none =
        some stripeFixture ∧
      (stripeFixture.caps.minAmountCents ≤ reqFixture.amount ∧
        reqFixture.amount ≤ stripeFixture.caps.maxAmountCents ∧
        reqFixture.currency ∈ stripeFixture.caps.supportedCurrencies) :=
  ⟨by decide,
    by
      have h := c5_selected_provider_eligible [stripeFixture] "priority"
        reqFixture none stripeFixture (by decide)
      exact ⟨h.2.2.1, h.2.2.2.1, h.2.2.2.2⟩⟩
